import Mathlib

/-!
Verification of the image-tiling scripts in
`Assets/Emoji System Base/Editor/Python/crop_image.py` and
`Assets/Emoji System Base/Editor/Python/Crop Images Into Squares/crop_image.py`.

Both scripts share one core routine, `cut_image_into_squares`, which splits a
decoded raster image into a grid of `square_size × square_size` tiles and
writes each tile as `square_{row}_{col}.png` under a destination folder.
We embed that routine shallowly: a decoded image is a structure with integer
dimensions and a pixel lookup; file-system side effects become an explicit
trace of events (`makedirs`, `writeFile`); the Python `ZeroDivisionError`
raised by `width // square_size` when `square_size == 0` becomes an `Except`
error.  Python's `//` on `int` is floor division, embedded as `Int.fdiv`;
`range(n)` for a possibly negative `n` iterates `n.toNat` times.
-/

/-- A decoded raster image: width and height in pixels, and a pixel lookup
giving the pixel value at column `x`, row `y` (PIL coordinates: `x` grows
rightwards, `y` grows downwards). -/
structure Image where
  width : Nat
  height : Nat
  pix : Nat → Nat → Nat

/-- PIL's `img.crop((left, top, right, bottom))`: returns an image of size
`(right-left) × (bottom-top)` whose pixel `(x, y)` is the source pixel
`(left+x, top+y)`, with regions outside the source filled with 0. -/
def Image.crop (img : Image) (left top right bottom : Int) : Image where
  width := (right - left).toNat
  height := (bottom - top).toNat
  pix := fun x y =>
    let sx : Int := left + ↑x
    let sy : Int := top + ↑y
    if 0 ≤ sx ∧ sx < ↑img.width ∧ 0 ≤ sy ∧ sy < ↑img.height then
      img.pix sx.toNat sy.toNat
    else 0

/-- A file-system side effect performed by the script: `os.makedirs(path)` or
`square.save(path)` (the encoded PNG content is identified with the tile
image, since the codec is lossless and deterministic). -/
inductive FsEvent where
  | makedirs (path : String)
  | writeFile (path : String) (content : Image)

/-- Whether an event is a tile write (`square.save`). -/
def FsEvent.isWrite : FsEvent → Bool
  | .writeFile _ _ => true
  | .makedirs _ => false

/-- The only uncaught Python exception reachable inside the tiling routine in
this embedding: `ZeroDivisionError` from `width // square_size`. -/
inductive PyError where
  | zeroDivision
deriving DecidableEq

/-- Source line `number_squares_horizontal = width // square_size`
(floor division on Python ints). -/
def number_squares_horizontal (width : Nat) (square_size : Int) : Int :=
  Int.fdiv (↑width) square_size

/-- Source line `number_squares_vertical = height // square_size`. -/
def number_squares_vertical (height : Nat) (square_size : Int) : Int :=
  Int.fdiv (↑height) square_size

/-- Source line `file_name = f'square_{j}_{i}.png'` (Python prints a
nonnegative int in decimal with no padding, as `Nat.repr` does). -/
def tileFileName (j i : Nat) : String :=
  "square_" ++ Nat.repr j ++ "_" ++ Nat.repr i ++ ".png"

/-- Source line `destination_path = os.path.join(destination_folder, file_name)`
(POSIX join of a folder and a bare file name). -/
def destinationPath (destination_folder : String) (file_name : String) : String :=
  destination_folder ++ "/" ++ file_name

/-- Embedding of `cut_image_into_squares(image_png, square_size,
destination_folder)` from both scripts (their tiling bodies are identical).
`img` is the already-decoded image (`Image.open`); `dest_exists` is the
result of `os.path.exists(destination_folder)` at call time.  The returned
trace lists the file-system effects in program order: the conditional
`makedirs`, then one `writeFile` per tile, rows outermost.  `square_size = 0`
raises `ZeroDivisionError` at `width // square_size`, before any effect. -/
def cut_image_into_squares (img : Image) (square_size : Int)
    (destination_folder : String) (dest_exists : Bool) :
    Except PyError (List FsEvent) :=
  if square_size = 0 then Except.error PyError.zeroDivision
  else
    let nh : Int := number_squares_horizontal img.width square_size
    let nv : Int := number_squares_vertical img.height square_size
    let mkdirEvents : List FsEvent :=
      if dest_exists then [] else [FsEvent.makedirs destination_folder]
    let tileEvents : List FsEvent :=
      (List.range nv.toNat).flatMap fun (j : Nat) =>
        (List.range nh.toNat).map fun (i : Nat) =>
          let left : Int := ↑i * square_size
          let top : Int := ↑j * square_size
          let right : Int := left + square_size
          let bottom : Int := top + square_size
          FsEvent.writeFile (destinationPath destination_folder (tileFileName j i))
            (img.crop left top right bottom)
    Except.ok (mkdirEvents ++ tileEvents)

/-- The usage string printed by the argument-driven script on wrong arity. -/
def usage_message : String :=
  "Usage: script.py <image_path> <square_size> <destination_folder>"

/-- The success string printed by the argument-driven script after tiling. -/
def success_message : String :=
  "Images successfully applied to folder."

/-- Outcome of one run of the argument-driven script's `__main__` block. -/
inductive MainOutcome where
  | usageExit (message : String) (code : Nat)
  | intParseError
  | crashed (e : PyError)
  | completed (events : List FsEvent) (finalMessage : String)

/-- Embedding of the `__main__` block of
`Assets/Emoji System Base/Editor/Python/crop_image.py`: with other than 3
user arguments it prints the usage message and exits with status 1 before
any tiling work; otherwise it parses `square_size` with `int(...)`, runs
`cut_image_into_squares` and, on completion, that routine prints the success
message.  `decode` stands for `Image.open` on the given path and
`dest_exists` for `os.path.exists(destination_folder)`. -/
def script_main (argv : List String) (decode : String → Image)
    (dest_exists : Bool) : MainOutcome :=
  match argv with
  | [_, image_path, size_str, dest] =>
    match size_str.toInt? with
    | none => MainOutcome.intParseError
    | some square_size =>
      match cut_image_into_squares (decode image_path) square_size dest dest_exists with
      | Except.error e => MainOutcome.crashed e
      | Except.ok evts => MainOutcome.completed evts success_message
  | _ => MainOutcome.usageExit usage_message 1

/-- The `makedirs` effects of one call: the folder is created only when
`os.path.exists(destination_folder)` was false. -/
def mkdirList (destination_folder : String) (dest_exists : Bool) : List FsEvent :=
  if dest_exists then [] else [FsEvent.makedirs destination_folder]

/-- The tile-write effects of one call, in program order (rows outermost),
exactly as produced by the nested `for` loops of `cut_image_into_squares`. -/
def tileList (img : Image) (square_size : Int) (destination_folder : String) :
    List FsEvent :=
  (List.range (number_squares_vertical img.height square_size).toNat).flatMap
    fun (j : Nat) =>
      (List.range (number_squares_horizontal img.width square_size).toNat).map
        fun (i : Nat) =>
          FsEvent.writeFile (destinationPath destination_folder (tileFileName j i))
            (img.crop (↑i * square_size) (↑j * square_size)
              (↑i * square_size + square_size) (↑j * square_size + square_size))

/-- The set of source-pixel coordinates `(x, y)` covered by the crop box of
tile `(j, i)`: `left = i*square_size`, `top = j*square_size`,
`right = left + square_size`, `bottom = top + square_size`, covering
`[left, right) × [top, bottom)` as in the loop body of
`cut_image_into_squares`. -/
def tileRegion (square_size : Nat) (j i : Nat) (p : Nat × Nat) : Prop :=
  i * square_size ≤ p.1 ∧ p.1 < i * square_size + square_size ∧
  j * square_size ≤ p.2 ∧ p.2 < j * square_size + square_size

instance (s j i : Nat) (p : Nat × Nat) : Decidable (tileRegion s j i p) := by
  unfold tileRegion
  infer_instance

/-- Replay a trace of file-system events on a file store (path ↦ content):
`makedirs` leaves files unchanged, `writeFile` overwrites. -/
def applyEvents (fs : String → Option Image) (evts : List FsEvent) :
    String → Option Image :=
  evts.foldl
    (fun acc ev =>
      match ev with
      | FsEvent.makedirs _ => acc
      | FsEvent.writeFile p c => fun q => if q = p then some c else acc q)
    fs

/-- The content of the last `writeFile` to path `q` in a trace, if any. -/
def lastWrite (q : String) : List FsEvent → Option Image
  | [] => none
  | ev :: rest =>
    match lastWrite q rest with
    | some c => some c
    | none =>
      match ev with
      | FsEvent.writeFile p c => if q = p then some c else none
      | FsEvent.makedirs _ => none

/-- Decimal digit characters of a natural number, most significant first;
mirrors what `Nat.repr` (and Python's `str` on a nonnegative int) prints. -/
def pyDigits (n : Nat) : List Char :=
  if n / 10 = 0 then [Nat.digitChar (n % 10)]
  else pyDigits (n / 10) ++ [Nat.digitChar (n % 10)]
decreasing_by
  exact Nat.div_lt_self (Nat.pos_of_ne_zero fun h0 => by simp [h0] at *) (by norm_num)

/-- A concrete 4×4 test image used by witnesses. -/
def testImg : Image where
  width := 4
  height := 4
  pix := fun x y => x + 4 * y

/-- The trace of a run of the tiler on `testImg` with `square_size = 2` into
folder `"t"` when the folder does not yet exist. -/
def testRunAbsent : List FsEvent :=
  match cut_image_into_squares testImg 2 "t" false with
  | Except.ok evts => evts
  | Except.error _ => []

/-- The trace of the same run when the folder already exists. -/
def testRunPresent : List FsEvent :=
  match cut_image_into_squares testImg 2 "t" true with
  | Except.ok evts => evts
  | Except.error _ => []

/-! ## Decimal printing: `Nat.repr` is injective and produces only digits -/

lemma pyDigits_eq (n : Nat) : pyDigits n =
    if n / 10 = 0 then [Nat.digitChar (n % 10)]
    else pyDigits (n / 10) ++ [Nat.digitChar (n % 10)] := by
  rw [pyDigits]

lemma toDigitsCore_eq_pyDigits :
    ∀ (fuel n : Nat) (ds : List Char), n < fuel →
      Nat.toDigitsCore 10 fuel n ds = pyDigits n ++ ds := by
  intro fuel
  induction fuel with
  | zero => intro n ds h; omega
  | succ f ih =>
    intro n ds h
    rw [Nat.toDigitsCore]
    by_cases h10 : n / 10 = 0
    · rw [if_pos h10, pyDigits_eq, if_pos h10]
      simp
    · rw [if_neg h10, pyDigits_eq, if_neg h10]
      have hpos : 0 < n := by omega
      have hd : n / 10 < n := Nat.div_lt_self hpos (by norm_num)
      rw [ih (n / 10) _ (by omega)]
      simp

lemma repr_data_eq_pyDigits (n : Nat) : (Nat.repr n).data = pyDigits n := by
  show (List.asString (Nat.toDigits 10 n)).data = pyDigits n
  rw [Nat.toDigits, toDigitsCore_eq_pyDigits (n + 1) n [] (Nat.lt_succ_self n)]
  simp [List.asString]

lemma digitChar_isDigit : ∀ d : Nat, d < 10 → (Nat.digitChar d).isDigit = true := by
  decide

lemma digitChar_inj : ∀ a : Nat, a < 10 → ∀ b : Nat, b < 10 →
    Nat.digitChar a = Nat.digitChar b → a = b := by
  decide

lemma pyDigits_digits (n : Nat) : ∀ c ∈ pyDigits n, c.isDigit = true := by
  induction n using pyDigits.induct with
  | case1 x hx =>
    intro c hc
    rw [pyDigits_eq, if_pos hx] at hc
    simp at hc
    subst hc
    exact digitChar_isDigit _ (Nat.mod_lt _ (by norm_num))
  | case2 x hx ih =>
    intro c hc
    rw [pyDigits_eq, if_neg hx] at hc
    rcases List.mem_append.mp hc with h | h
    · exact ih c h
    · simp at h
      subst h
      exact digitChar_isDigit _ (Nat.mod_lt _ (by norm_num))

lemma pyDigits_ne_nil (n : Nat) : pyDigits n ≠ [] := by
  rw [pyDigits_eq]
  by_cases h : n / 10 = 0 <;> simp [h]

lemma pyDigits_inj : ∀ {n m : Nat}, pyDigits n = pyDigits m → n = m := by
  intro n
  induction n using pyDigits.induct with
  | case1 x hx =>
    intro m h
    rw [pyDigits_eq x, if_pos hx, pyDigits_eq m] at h
    by_cases hm : m / 10 = 0
    · rw [if_pos hm] at h
      simp at h
      have := digitChar_inj _ (Nat.mod_lt _ (by norm_num)) _ (Nat.mod_lt _ (by norm_num)) h
      omega
    · rw [if_neg hm] at h
      exfalso
      have hlen := congrArg List.length h
      simp at hlen
      exact pyDigits_ne_nil (m / 10) hlen
  | case2 x hx ih =>
    intro m h
    rw [pyDigits_eq x, if_neg hx, pyDigits_eq m] at h
    by_cases hm : m / 10 = 0
    · rw [if_pos hm] at h
      exfalso
      have hlen := congrArg List.length h
      simp at hlen
      exact pyDigits_ne_nil (x / 10) hlen
    · rw [if_neg hm] at h
      have h' := congrArg List.reverse h
      simp at h'
      have h1 := ih h'.2
      have h2 := digitChar_inj _ (Nat.mod_lt _ (by norm_num)) _ (Nat.mod_lt _ (by norm_num)) h'.1
      omega

lemma repr_no_sep (n : Nat) {c : Char} (hc : c.isDigit = false) :
    c ∉ (Nat.repr n).data := by
  rw [repr_data_eq_pyDigits]
  intro hmem
  have := pyDigits_digits n c hmem
  rw [this] at hc
  exact Bool.noConfusion hc

lemma append_sep_inj {sep : Char} :
    ∀ (l1 : List Char) {l2 t1 t2 : List Char}, sep ∉ l1 → sep ∉ l2 →
      l1 ++ sep :: t1 = l2 ++ sep :: t2 → l1 = l2 ∧ t1 = t2 := by
  intro l1
  induction l1 with
  | nil =>
    intro l2 t1 t2 h1 h2 h
    cases l2 with
    | nil => simpa using h
    | cons c cs =>
      exfalso
      simp at h
      exact h2 (by rw [← h.1]; simp)
  | cons c cs ih =>
    intro l2 t1 t2 h1 h2 h
    cases l2 with
    | nil =>
      exfalso
      simp at h
      exact h1 (by rw [h.1]; simp)
    | cons d ds =>
      simp at h
      have := ih (by simp at h1; exact h1.2) (by simp at h2; exact h2.2) h.2
      exact ⟨by rw [h.1, this.1], this.2⟩

lemma underscore_not_in_repr (n : Nat) : '_' ∉ (Nat.repr n).data :=
  repr_no_sep n (by decide)

lemma dot_not_in_repr (n : Nat) : '.' ∉ (Nat.repr n).data :=
  repr_no_sep n (by decide)

lemma tileFileName_inj {j i j' i' : Nat}
    (h : tileFileName j i = tileFileName j' i') : j = j' ∧ i = i' := by
  have hd := congrArg String.data h
  simp only [tileFileName, String.data_append, List.append_assoc] at hd
  have hd' := List.append_cancel_left hd
  simp only [List.singleton_append] at hd'
  have h1 := append_sep_inj _ (underscore_not_in_repr j) (underscore_not_in_repr j') hd'
  have h2 := append_sep_inj _ (dot_not_in_repr i) (dot_not_in_repr i') h1.2
  constructor
  · exact pyDigits_inj (by rw [← repr_data_eq_pyDigits, ← repr_data_eq_pyDigits, h1.1])
  · exact pyDigits_inj (by rw [← repr_data_eq_pyDigits, ← repr_data_eq_pyDigits, h2.1])

/-! ## Grid arithmetic and trace decomposition -/

lemma flatMap_range_map_length {α : Type} (n m : Nat) (f : Nat → Nat → α) :
    ((List.range n).flatMap fun j => (List.range m).map (f j)).length = n * m := by
  induction n with
  | zero => simp
  | succ k ih =>
    rw [List.range_succ, List.flatMap_append]
    simp [ih, Nat.succ_mul]

lemma flatMap_range_map_getElem {α : Type} (n m : Nat) (f : Nat → Nat → α)
    (j i : Nat) (hj : j < n) (hi : i < m) :
    ((List.range n).flatMap fun j => (List.range m).map (f j))[j * m + i]? =
      some (f j i) := by
  induction n with
  | zero => omega
  | succ k ih =>
    rw [List.range_succ, List.flatMap_append, List.getElem?_append]
    rcases Nat.lt_succ_iff_lt_or_eq.mp hj with h | rfl
    · rw [if_pos]
      · exact ih h
      · rw [flatMap_range_map_length]
        calc j * m + i < j * m + m := by omega
          _ = (j + 1) * m := by ring
          _ ≤ k * m := Nat.mul_le_mul_right m h
    · rw [if_neg, flatMap_range_map_length]
      · have hsub : j * m + i - j * m = i := by omega
        rw [hsub]
        simp [List.getElem?_map, List.getElem?_range hi]
      · rw [flatMap_range_map_length]
        omega

lemma toNat_fdiv_coe (w : Nat) (s : Int) (hs : 0 < s) :
    (Int.fdiv (↑w) s).toNat = w / s.toNat := by
  obtain ⟨k, rfl⟩ : ∃ k : Nat, s = ↑k := ⟨s.toNat, (Int.toNat_of_nonneg hs.le).symm⟩
  rw [← Int.ofNat_fdiv]
  simp only [Int.toNat_ofNat]

lemma fdiv_coe_nonpos (w : Nat) (s : Int) (hs : s < 0) :
    (Int.fdiv (↑w) s).toNat = 0 :=
  Int.toNat_of_nonpos (Int.fdiv_nonpos (by positivity) hs.le)

lemma cut_eq_ok (img : Image) (s : Int) (d : String) (e : Bool) (hs : s ≠ 0) :
    cut_image_into_squares img s d e =
      Except.ok (mkdirList d e ++ tileList img s d) := by
  simp only [cut_image_into_squares, if_neg hs, mkdirList, tileList]

lemma cut_zero (img : Image) (d : String) (e : Bool) :
    cut_image_into_squares img 0 d e = Except.error PyError.zeroDivision := rfl

lemma cut_ok_inv {img : Image} {s : Int} {d : String} {e : Bool}
    {evts : List FsEvent}
    (h : cut_image_into_squares img s d e = Except.ok evts) :
    s ≠ 0 ∧ evts = mkdirList d e ++ tileList img s d := by
  by_cases hs : s = 0
  · subst hs
    rw [cut_zero] at h
    exact absurd h (by simp)
  · refine ⟨hs, ?_⟩
    rw [cut_eq_ok img s d e hs] at h
    exact (Except.ok.inj h).symm

lemma mem_tileList {img : Image} {s : Int} {d : String} {ev : FsEvent} :
    ev ∈ tileList img s d ↔
      ∃ j i : Nat, j < (number_squares_vertical img.height s).toNat ∧
        i < (number_squares_horizontal img.width s).toNat ∧
        ev = FsEvent.writeFile (destinationPath d (tileFileName j i))
          (img.crop (↑i * s) (↑j * s) (↑i * s + s) (↑j * s + s)) := by
  simp only [tileList, List.mem_flatMap, List.mem_map, List.mem_range]
  constructor
  · rintro ⟨j, hj, i, hi, rfl⟩
    exact ⟨j, i, hj, hi, rfl⟩
  · rintro ⟨j, i, hj, hi, rfl⟩
    exact ⟨j, hj, i, hi, rfl⟩

lemma filter_isWrite_run (img : Image) (s : Int) (d : String) (e : Bool) :
    (mkdirList d e ++ tileList img s d).filter FsEvent.isWrite =
      tileList img s d := by
  rw [List.filter_append]
  have h1 : (mkdirList d e).filter FsEvent.isWrite = [] := by
    cases e <;> simp [mkdirList, FsEvent.isWrite]
  have h2 : (tileList img s d).filter FsEvent.isWrite = tileList img s d := by
    rw [List.filter_eq_self]
    intro a ha
    rcases mem_tileList.mp ha with ⟨j, i, _, _, rfl⟩
    rfl
  rw [h1, h2, List.nil_append]

lemma tileList_length (img : Image) (s : Int) (d : String) :
    (tileList img s d).length =
      (number_squares_vertical img.height s).toNat *
        (number_squares_horizontal img.width s).toNat := by
  unfold tileList
  exact flatMap_range_map_length _ _ _

lemma tileList_getElem (img : Image) (s : Int) (d : String) (j i : Nat)
    (hj : j < (number_squares_vertical img.height s).toNat)
    (hi : i < (number_squares_horizontal img.width s).toNat) :
    (tileList img s d)[j * (number_squares_horizontal img.width s).toNat + i]? =
      some (FsEvent.writeFile (destinationPath d (tileFileName j i))
        (img.crop (↑i * s) (↑j * s) (↑i * s + s) (↑j * s + s))) := by
  unfold tileList
  exact flatMap_range_map_getElem _ _ _ j i hj hi

lemma crop_square_width (img : Image) (a b s : Int) :
    (img.crop a b (a + s) (b + s)).width = s.toNat := by
  simp [Image.crop]

lemma crop_square_height (img : Image) (a b s : Int) :
    (img.crop a b (a + s) (b + s)).height = s.toNat := by
  simp [Image.crop]

lemma crop_tile_pix (img : Image) (k : Nat) (j i x y : Nat)
    (hi : i < img.width / k) (hj : j < img.height / k)
    (hx : x < k) (hy : y < k) :
    (img.crop (↑i * ↑k) (↑j * ↑k) (↑i * ↑k + ↑k) (↑j * ↑k + ↑k)).pix x y =
      img.pix (i * k + x) (j * k + y) := by
  have hxw : i * k + x < img.width := by
    have h1 : (i + 1) * k ≤ (img.width / k) * k := Nat.mul_le_mul_right k hi
    have h2 : (img.width / k) * k ≤ img.width := Nat.div_mul_le_self _ _
    have h3 : i * k + x < (i + 1) * k := by
      have : (i + 1) * k = i * k + k := by ring
      omega
    omega
  have hyh : j * k + y < img.height := by
    have h1 : (j + 1) * k ≤ (img.height / k) * k := Nat.mul_le_mul_right k hj
    have h2 : (img.height / k) * k ≤ img.height := Nat.div_mul_le_self _ _
    have h3 : j * k + y < (j + 1) * k := by
      have : (j + 1) * k = j * k + k := by ring
      omega
    omega
  simp only [Image.crop]
  rw [show (↑i * ↑k + ↑x : Int) = ↑(i * k + x) by push_cast; ring,
    show (↑j * ↑k + ↑y : Int) = ↑(j * k + y) by push_cast; ring]
  rw [if_pos]
  · rw [Int.toNat_ofNat, Int.toNat_ofNat]
  · exact ⟨by positivity, by exact_mod_cast hxw, by positivity, by exact_mod_cast hyh⟩

lemma number_squares_horizontal_toNat (w : Nat) (s : Int) (hs : 0 < s) :
    (number_squares_horizontal w s).toNat = w / s.toNat :=
  toNat_fdiv_coe w s hs

lemma number_squares_vertical_toNat (h : Nat) (s : Int) (hs : 0 < s) :
    (number_squares_vertical h s).toNat = h / s.toNat :=
  toNat_fdiv_coe h s hs

lemma number_squares_vertical_neg (h : Nat) (s : Int) (hs : s < 0) :
    (number_squares_vertical h s).toNat = 0 :=
  fdiv_coe_nonpos h s hs

lemma tileList_neg (img : Image) (s : Int) (d : String) (hs : s < 0) :
    tileList img s d = [] := by
  unfold tileList
  rw [number_squares_vertical_neg img.height s hs]
  simp

/-! ## Replaying traces on a file store -/

lemma applyEvents_append (fs : String → Option Image) (l1 l2 : List FsEvent) :
    applyEvents fs (l1 ++ l2) = applyEvents (applyEvents fs l1) l2 :=
  List.foldl_append _ _ _ _

lemma applyEvents_mkdirList (fs : String → Option Image) (d : String) (e : Bool) :
    applyEvents fs (mkdirList d e) = fs := by
  cases e <;> rfl

lemma applyEvents_eq_lastWrite_or (evts : List FsEvent) :
    ∀ (fs : String → Option Image) (q : String),
      applyEvents fs evts q = (lastWrite q evts).or (fs q) := by
  induction evts with
  | nil =>
    intro fs q
    simp [applyEvents, lastWrite]
  | cons ev rest ih =>
    intro fs q
    cases ev with
    | makedirs p =>
      show applyEvents fs rest q = _
      rw [ih]
      cases hlw : lastWrite q rest <;> simp [lastWrite, hlw, Option.or]
    | writeFile p c =>
      show applyEvents (fun q' => if q' = p then some c else fs q') rest q = _
      rw [ih]
      cases hlw : lastWrite q rest with
      | some c2 => simp [lastWrite, hlw, Option.or]
      | none =>
        simp only [lastWrite, hlw, Option.or]
        by_cases hq : q = p <;> simp [hq]

lemma applyEvents_twice (evts : List FsEvent) (fs : String → Option Image) :
    applyEvents (applyEvents fs evts) evts = applyEvents fs evts := by
  funext q
  rw [applyEvents_eq_lastWrite_or, applyEvents_eq_lastWrite_or]
  cases hlw : lastWrite q evts <;> simp [Option.or]

/-! ## Claims -/

/-- C1, counterexample: with `square_size = -1` on a 4×4 image and an absent
destination folder, `cut_image_into_squares` does not reject the call: it
returns successfully and its first (and only) effect is creating the
destination directory — file I/O occurs and no error is signalled, contrary
to the claim that every `squareSize ≤ 0` is rejected before any file I/O. -/
theorem claim_C1_counterexample :
    cut_image_into_squares testImg (-1) "out" false =
      Except.ok [FsEvent.makedirs "out"] := by
  rw [cut_eq_ok testImg (-1) "out" false (by decide),
    tileList_neg testImg (-1) "out" (by decide)]
  simp [mkdirList]

/-- C1, amended: the scripts do not validate `square_size`.  For
`square_size = 0` the call raises `ZeroDivisionError` at
`width // square_size`, before any file I/O; for `square_size < 0` the call
is not rejected: it completes successfully, creates the destination folder
if absent, and writes no tile. -/
theorem claim_C1_nonpositive_size (img : Image) (s : Int) (d : String)
    (e : Bool) (hs : s ≤ 0) :
    (s = 0 → cut_image_into_squares img s d e =
      Except.error PyError.zeroDivision) ∧
    (s < 0 → cut_image_into_squares img s d e = Except.ok (mkdirList d e)) := by
  constructor
  · rintro rfl
    exact cut_zero img d e
  · intro hneg
    rw [cut_eq_ok img s d e (by omega), tileList_neg img s d hneg]
    simp

/-- Witness for C1 (amended) at `square_size = -1`. -/
theorem claim_C1_nonpositive_size_witness :
    (-1 : Int) ≤ 0 ∧
      cut_image_into_squares testImg (-1) "w" true =
        Except.ok (mkdirList "w" true) :=
  ⟨by decide,
    (claim_C1_nonpositive_size testImg (-1) "w" true (by decide)).2 (by decide)⟩

/-- C2: a successful run writes exactly
`(width div squareSize) * (height div squareSize)` tile files, and every
written tile is exactly `squareSize × squareSize` pixels. -/
theorem claim_C2_tile_count_and_size (img : Image) (s : Int) (d : String)
    (e : Bool) (evts : List FsEvent) (hs : 0 < s)
    (h : cut_image_into_squares img s d e = Except.ok evts) :
    (evts.filter FsEvent.isWrite).length =
      (img.width / s.toNat) * (img.height / s.toNat) ∧
    ∀ p c, FsEvent.writeFile p c ∈ evts →
      c.width = s.toNat ∧ c.height = s.toNat := by
  obtain ⟨hs0, rfl⟩ := cut_ok_inv h
  constructor
  · rw [filter_isWrite_run, tileList_length,
      number_squares_vertical_toNat _ _ hs, number_squares_horizontal_toNat _ _ hs,
      Nat.mul_comm]
  · intro p c hmem
    rcases List.mem_append.mp hmem with hm | hm
    · exfalso
      cases e <;> simp [mkdirList] at hm
    · rcases mem_tileList.mp hm with ⟨j, i, hj, hi, heq⟩
      injection heq with hp hc
      subst hc
      exact ⟨crop_square_width img _ _ s, crop_square_height img _ _ s⟩

/-- Witness for C2 on the 4×4 test image with `square_size = 2`. -/
theorem claim_C2_tile_count_and_size_witness :
    (0 : Int) < 2 ∧
      ((testRunPresent.filter FsEvent.isWrite).length =
          (testImg.width / (2 : Int).toNat) * (testImg.height / (2 : Int).toNat) ∧
        ∀ p c, FsEvent.writeFile p c ∈ testRunPresent →
          c.width = (2 : Int).toNat ∧ c.height = (2 : Int).toNat) :=
  ⟨by decide,
    claim_C2_tile_count_and_size testImg 2 "t" true testRunPresent (by decide) rfl⟩

/-- C3: for every valid input, the tile written for coordinate `(row, col)` —
`(j, i)` in the source — has pixel `(x, y)` equal to the source pixel
`(col*squareSize + x, row*squareSize + y)`, i.e. its content is exactly the
source region `[col*s, (col+1)*s) × [row*s, (row+1)*s)`. -/
theorem claim_C3_tile_content (img : Image) (s : Int) (d : String) (e : Bool)
    (evts : List FsEvent) (j i x y : Nat) (hs : 0 < s)
    (h : cut_image_into_squares img s d e = Except.ok evts)
    (hj : j < img.height / s.toNat) (hi : i < img.width / s.toNat)
    (hx : x < s.toNat) (hy : y < s.toNat) :
    ∃ c, FsEvent.writeFile (destinationPath d (tileFileName j i)) c ∈ evts ∧
      c.pix x y = img.pix (i * s.toNat + x) (j * s.toNat + y) := by
  obtain ⟨hs0, rfl⟩ := cut_ok_inv h
  obtain ⟨k, rfl⟩ : ∃ k : Nat, s = ↑k := ⟨s.toNat, (Int.toNat_of_nonneg hs.le).symm⟩
  simp only [Int.toNat_ofNat] at hj hi hx hy ⊢
  refine ⟨img.crop (↑i * ↑k) (↑j * ↑k) (↑i * ↑k + ↑k) (↑j * ↑k + ↑k), ?_, ?_⟩
  · apply List.mem_append_right
    apply mem_tileList.mpr
    refine ⟨j, i, ?_, ?_, rfl⟩
    · rw [number_squares_vertical_toNat _ _ hs, Int.toNat_ofNat]
      exact hj
    · rw [number_squares_horizontal_toNat _ _ hs, Int.toNat_ofNat]
      exact hi
  · exact crop_tile_pix img k j i x y hi hj hx hy

/-- Witness for C3: tile `(1, 1)` of the 4×4 test image at `square_size = 2`,
pixel `(0, 1)`. -/
theorem claim_C3_tile_content_witness :
    (0 : Int) < 2 ∧
      ∃ c, FsEvent.writeFile (destinationPath "t" (tileFileName 1 1)) c ∈
          testRunPresent ∧
        c.pix 0 1 = testImg.pix (1 * (2 : Int).toNat + 0) (1 * (2 : Int).toNat + 1) :=
  ⟨by decide,
    claim_C3_tile_content testImg 2 "t" true testRunPresent 1 1 0 1 (by decide)
      rfl (by decide) (by decide) (by decide) (by decide)⟩

/-- C4: with a positive `squareSize`, the crop regions of two distinct tiles
are disjoint, every tile region with in-range coordinates lies inside the
covered region `[0, columns*squareSize) × [0, rows*squareSize)`, and hence
pixels of a trailing partial row or column belong to no tile. -/
theorem claim_C4_disjoint_and_bounded (w h : Nat) (s : Int) (hs : 0 < s) :
    (∀ j i j' i' : Nat, ¬(j = j' ∧ i = i') → ∀ p : Nat × Nat,
        tileRegion s.toNat j i p → ¬ tileRegion s.toNat j' i' p) ∧
    (∀ j i : Nat, j < (number_squares_vertical h s).toNat →
      i < (number_squares_horizontal w s).toNat → ∀ p : Nat × Nat,
        tileRegion s.toNat j i p →
        p.1 < (number_squares_horizontal w s).toNat * s.toNat ∧
        p.2 < (number_squares_vertical h s).toNat * s.toNat) := by
  have hk : 0 < s.toNat := by omega
  constructor
  · rintro j i j' i' hne p hp hp'
    unfold tileRegion at hp hp'
    apply hne
    have e1 : p.1 / s.toNat = i :=
      Nat.div_eq_of_lt_le hp.1 (by rw [Nat.succ_mul]; exact hp.2.1)
    have e1' : p.1 / s.toNat = i' :=
      Nat.div_eq_of_lt_le hp'.1 (by rw [Nat.succ_mul]; exact hp'.2.1)
    have e2 : p.2 / s.toNat = j :=
      Nat.div_eq_of_lt_le hp.2.2.1 (by rw [Nat.succ_mul]; exact hp.2.2.2)
    have e2' : p.2 / s.toNat = j' :=
      Nat.div_eq_of_lt_le hp'.2.2.1 (by rw [Nat.succ_mul]; exact hp'.2.2.2)
    omega
  · rintro j i hj hi p hp
    unfold tileRegion at hp
    constructor
    · have h1 : i * s.toNat + s.toNat = (i + 1) * s.toNat := (Nat.succ_mul i _).symm
      have h2 : (i + 1) * s.toNat ≤ (number_squares_horizontal w s).toNat * s.toNat :=
        Nat.mul_le_mul_right _ hi
      omega
    · have h1 : j * s.toNat + s.toNat = (j + 1) * s.toNat := (Nat.succ_mul j _).symm
      have h2 : (j + 1) * s.toNat ≤ (number_squares_vertical h s).toNat * s.toNat :=
        Nat.mul_le_mul_right _ hj
      omega

/-- Witness for C4 on a 4×4 image with `square_size = 2`. -/
theorem claim_C4_disjoint_and_bounded_witness :
    (0 : Int) < 2 ∧
      ((∀ j i j' i' : Nat, ¬(j = j' ∧ i = i') → ∀ p : Nat × Nat,
          tileRegion (2 : Int).toNat j i p → ¬ tileRegion (2 : Int).toNat j' i' p) ∧
        (∀ j i : Nat, j < (number_squares_vertical 4 2).toNat →
          i < (number_squares_horizontal 4 2).toNat → ∀ p : Nat × Nat,
            tileRegion (2 : Int).toNat j i p →
            p.1 < (number_squares_horizontal 4 2).toNat * (2 : Int).toNat ∧
            p.2 < (number_squares_vertical 4 2).toNat * (2 : Int).toNat)) :=
  ⟨by decide, claim_C4_disjoint_and_bounded 4 4 2 (by decide)⟩

/-- C5: every tile write goes to
`destinationFolder/square_{row}_{col}.png` for its in-range coordinates, and
the naming is injective: distinct coordinates give distinct file names. -/
theorem claim_C5_file_names (img : Image) (s : Int) (d : String) (e : Bool)
    (evts : List FsEvent) (hs : 0 < s)
    (h : cut_image_into_squares img s d e = Except.ok evts) :
    (∀ p c, FsEvent.writeFile p c ∈ evts → ∃ j i : Nat,
        j < img.height / s.toNat ∧ i < img.width / s.toNat ∧
        p = destinationPath d (tileFileName j i)) ∧
    (∀ j i j' i' : Nat, tileFileName j i = tileFileName j' i' →
      j = j' ∧ i = i') := by
  obtain ⟨hs0, rfl⟩ := cut_ok_inv h
  constructor
  · intro p c hmem
    rcases List.mem_append.mp hmem with hm | hm
    · exfalso
      cases e <;> simp [mkdirList] at hm
    · rcases mem_tileList.mp hm with ⟨j, i, hj, hi, heq⟩
      injection heq with hp hc
      refine ⟨j, i, ?_, ?_, hp⟩
      · rw [← number_squares_vertical_toNat _ _ hs]
        exact hj
      · rw [← number_squares_horizontal_toNat _ _ hs]
        exact hi
  · intro j i j' i' hname
    exact tileFileName_inj hname

/-- Witness for C5 on the 4×4 test image with `square_size = 2`. -/
theorem claim_C5_file_names_witness :
    (0 : Int) < 2 ∧
      ((∀ p c, FsEvent.writeFile p c ∈ testRunPresent → ∃ j i : Nat,
          j < testImg.height / (2 : Int).toNat ∧
          i < testImg.width / (2 : Int).toNat ∧
          p = destinationPath "t" (tileFileName j i)) ∧
        (∀ j i j' i' : Nat, tileFileName j i = tileFileName j' i' →
          j = j' ∧ i = i')) :=
  ⟨by decide,
    claim_C5_file_names testImg 2 "t" true testRunPresent (by decide) rfl⟩

/-- C6: tiles are produced in row-major order: among the write events of a
successful run, the event at index `row * columns + col` (zero-based, in
trace order) is exactly the write of tile `(row, col)`, and there are
`rows * columns` writes in total — so the write sequence is
`(0,0), (0,1), …, (0,columns-1), (1,0), …, (rows-1,columns-1)`. -/
theorem claim_C6_row_major (img : Image) (s : Int) (d : String) (e : Bool)
    (evts : List FsEvent) (j i : Nat) (hs : 0 < s)
    (h : cut_image_into_squares img s d e = Except.ok evts)
    (hj : j < img.height / s.toNat) (hi : i < img.width / s.toNat) :
    (evts.filter FsEvent.isWrite).length =
      (img.height / s.toNat) * (img.width / s.toNat) ∧
    (evts.filter FsEvent.isWrite)[j * (img.width / s.toNat) + i]? =
      some (FsEvent.writeFile (destinationPath d (tileFileName j i))
        (img.crop (↑i * s) (↑j * s) (↑i * s + s) (↑j * s + s))) := by
  obtain ⟨hs0, rfl⟩ := cut_ok_inv h
  rw [filter_isWrite_run]
  constructor
  · rw [tileList_length, number_squares_vertical_toNat _ _ hs,
      number_squares_horizontal_toNat _ _ hs]
  · rw [← number_squares_horizontal_toNat img.width s hs]
    exact tileList_getElem img s d j i
      (by rw [number_squares_vertical_toNat _ _ hs]; exact hj)
      (by rw [number_squares_horizontal_toNat _ _ hs]; exact hi)

/-- Witness for C6: tile `(1, 0)` sits at write index `1*2 + 0 = 2` of the
run on the 4×4 test image with `square_size = 2`. -/
theorem claim_C6_row_major_witness :
    (0 : Int) < 2 ∧
      ((testRunPresent.filter FsEvent.isWrite).length =
          (testImg.height / (2 : Int).toNat) * (testImg.width / (2 : Int).toNat) ∧
        (testRunPresent.filter FsEvent.isWrite)[1 * (testImg.width / (2 : Int).toNat) + 0]? =
          some (FsEvent.writeFile (destinationPath "t" (tileFileName 1 0))
            (testImg.crop (↑(0 : Nat) * 2) (↑(1 : Nat) * 2)
              (↑(0 : Nat) * 2 + 2) (↑(1 : Nat) * 2 + 2)))) :=
  ⟨by decide,
    claim_C6_row_major testImg 2 "t" true testRunPresent 1 0 (by decide) rfl
      (by decide) (by decide)⟩

/-- C7: with a positive `squareSize`, the run always completes successfully;
if the image is narrower or shorter than one tile it writes zero tiles (an
empty, non-error result); `squareSize` equal to the image width (resp.
height) gives exactly one column (resp. one row). -/
theorem claim_C7_boundary (img : Image) (s : Int) (d : String) (e : Bool)
    (hs : 0 < s) :
    (∃ evts, cut_image_into_squares img s d e = Except.ok evts ∧
      ((img.width < s.toNat ∨ img.height < s.toNat) →
        evts.filter FsEvent.isWrite = [])) ∧
    (s = ↑img.width → number_squares_horizontal img.width s = 1) ∧
    (s = ↑img.height → number_squares_vertical img.height s = 1) := by
  refine ⟨⟨mkdirList d e ++ tileList img s d, cut_eq_ok _ _ _ _ (by omega), ?_⟩,
    ?_, ?_⟩
  · intro hlt
    rw [filter_isWrite_run]
    unfold tileList
    rcases hlt with hw | hh
    · have hz : (number_squares_horizontal img.width s).toNat = 0 := by
        rw [number_squares_horizontal_toNat _ _ hs]
        exact Nat.div_eq_of_lt hw
      rw [hz]
      simp
    · have hz : (number_squares_vertical img.height s).toNat = 0 := by
        rw [number_squares_vertical_toNat _ _ hs]
        exact Nat.div_eq_of_lt hh
      rw [hz]
      simp
  · rintro rfl
    have hw : 0 < img.width := by exact_mod_cast hs
    unfold number_squares_horizontal
    rw [← Int.ofNat_fdiv, Nat.div_self hw]
    rfl
  · rintro rfl
    have hh : 0 < img.height := by exact_mod_cast hs
    unfold number_squares_vertical
    rw [← Int.ofNat_fdiv, Nat.div_self hh]
    rfl

/-- Witness for C7 with `square_size = 5`, larger than both dimensions of the
4×4 test image. -/
theorem claim_C7_boundary_witness :
    (0 : Int) < 5 ∧
      ((∃ evts, cut_image_into_squares testImg 5 "t" true = Except.ok evts ∧
          ((testImg.width < (5 : Int).toNat ∨ testImg.height < (5 : Int).toNat) →
            evts.filter FsEvent.isWrite = [])) ∧
        ((5 : Int) = ↑testImg.width → number_squares_horizontal testImg.width 5 = 1) ∧
        ((5 : Int) = ↑testImg.height → number_squares_vertical testImg.height 5 = 1)) :=
  ⟨by decide, claim_C7_boundary testImg 5 "t" true (by decide)⟩

/-- C8: in argument-driven mode, any argument vector that does not carry
exactly 3 user arguments (`len(sys.argv) != 4`) makes the program print the
usage message and exit with status 1 before any tiling work, and every run
that reaches completion prints the success message. -/
theorem claim_C8_argument_mode (argv : List String) (decode : String → Image)
    (e : Bool) :
    (argv.length ≠ 4 →
      script_main argv decode e = MainOutcome.usageExit usage_message 1) ∧
    (∀ evts msg, script_main argv decode e = MainOutcome.completed evts msg →
      msg = success_message) := by
  constructor
  · intro hlen
    rcases argv with _ | ⟨a1, _ | ⟨a2, _ | ⟨a3, _ | ⟨a4, _ | ⟨a5, rest⟩⟩⟩⟩⟩
    · rfl
    · rfl
    · rfl
    · rfl
    · exact absurd rfl hlen
    · rfl
  · intro evts msg hrun
    rcases argv with _ | ⟨a1, _ | ⟨a2, _ | ⟨a3, _ | ⟨a4, _ | ⟨a5, rest⟩⟩⟩⟩⟩
    · exact MainOutcome.noConfusion hrun
    · exact MainOutcome.noConfusion hrun
    · exact MainOutcome.noConfusion hrun
    · exact MainOutcome.noConfusion hrun
    · simp only [script_main] at hrun
      split at hrun
      · exact MainOutcome.noConfusion hrun
      · split at hrun
        · exact MainOutcome.noConfusion hrun
        · injection hrun with h1 h2
          exact h2.symm
    · exact MainOutcome.noConfusion hrun

/-- Witness for C8: a single-element argument vector triggers the usage exit. -/
theorem claim_C8_argument_mode_witness :
    script_main ["script.py"] (fun _ => testImg) true =
      MainOutcome.usageExit usage_message 1 :=
  (claim_C8_argument_mode ["script.py"] (fun _ => testImg) true).1 (by decide)

/-- C9: the tiler is deterministic and idempotent: two successful runs on the
same image, `square_size` and destination folder produce the same writes
(the same file names with identical contents), and replaying the second
run's trace over the first run's result leaves the file store unchanged. -/
theorem claim_C9_idempotent (img : Image) (s : Int) (d : String) (e1 e2 : Bool)
    (evts1 evts2 : List FsEvent) (fs : String → Option Image)
    (h1 : cut_image_into_squares img s d e1 = Except.ok evts1)
    (h2 : cut_image_into_squares img s d e2 = Except.ok evts2) :
    evts1.filter FsEvent.isWrite = evts2.filter FsEvent.isWrite ∧
    applyEvents (applyEvents fs evts1) evts2 = applyEvents fs evts1 := by
  obtain ⟨hs1, rfl⟩ := cut_ok_inv h1
  obtain ⟨hs2, rfl⟩ := cut_ok_inv h2
  constructor
  · rw [filter_isWrite_run, filter_isWrite_run]
  · rw [applyEvents_append, applyEvents_mkdirList, applyEvents_append,
      applyEvents_mkdirList, applyEvents_twice]

/-- Witness for C9: a first run with the folder absent followed by a second
run with the folder present, on the 4×4 test image. -/
theorem claim_C9_idempotent_witness :
    testRunAbsent.filter FsEvent.isWrite =
        testRunPresent.filter FsEvent.isWrite ∧
      applyEvents (applyEvents (fun _ => none) testRunAbsent) testRunPresent =
        applyEvents (fun _ => none) testRunAbsent :=
  claim_C9_idempotent testImg 2 "t" false true testRunAbsent testRunPresent
    (fun _ => none) rfl rfl

/-- C10: on every successful call the destination folder exists afterwards:
if it was absent the very first effect (before any tile write, and even when
zero tiles are produced) is `makedirs destination_folder`; if it was present
no further effect is needed. -/
theorem claim_C10_dest_created (img : Image) (s : Int) (d : String) (e : Bool)
    (evts : List FsEvent)
    (h : cut_image_into_squares img s d e = Except.ok evts) :
    (e = false → evts.head? = some (FsEvent.makedirs d)) ∧
    (e = true ∨ FsEvent.makedirs d ∈ evts) := by
  obtain ⟨hs, rfl⟩ := cut_ok_inv h
  constructor
  · rintro rfl
    simp [mkdirList]
  · cases e
    · right
      simp [mkdirList]
    · left
      rfl

/-- Witness for C10: the run on the 4×4 test image with the folder absent. -/
theorem claim_C10_dest_created_witness :
    (false = false → testRunAbsent.head? = some (FsEvent.makedirs "t")) ∧
      (false = true ∨ FsEvent.makedirs "t" ∈ testRunAbsent) :=
  claim_C10_dest_created testImg 2 "t" false testRunAbsent rfl
